import Mathlib

/-!
Shallow embedding of the "Warmup" productivity app's core stores, translated
from the TypeScript sources:
  - the to-do store (`useTodos`): `create`, `toggle`, `reorder` over a JS array;
  - the pomodoro store (`useProductivity`): `startPomodoro`, `pausePomodoro`,
    `resumePomodoro`, `completePomodoro`, `updateTimer`;
  - the playlist store (`usePlaylists`): `extractPlaylistId`,
    `fetchAllPlaylistVideos`, the per-page batch merge, `addPlaylistByUrl`.
Wall-clock reads (`Date.now()`) become explicit `now : Int` parameters,
network responses become explicit response lists, and JS objects used as
string-keyed maps become association lists with JS insertion/update semantics.
-/

set_option autoImplicit false

namespace Warmup

/-! ## JavaScript primitives used by the sources -/

/-- The WhiteSpace/LineTerminator set recognised by JavaScript `trim()`. -/
def isJsWhitespace (c : Char) : Bool :=
  c = ' ' || c = '\t' || c = '\n' || c = '\r' ||
  c = Char.ofNat 0x0B || c = Char.ofNat 0x0C || c = Char.ofNat 0xA0 ||
  c = Char.ofNat 0x1680 || (0x2000 ≤ c.toNat && c.toNat ≤ 0x200A) ||
  c = Char.ofNat 0x2028 || c = Char.ofNat 0x2029 || c = Char.ofNat 0x202F ||
  c = Char.ofNat 0x205F || c = Char.ofNat 0x3000 || c = Char.ofNat 0xFEFF

/-- JavaScript `String.prototype.trim`. -/
def jsTrim (s : String) : String :=
  String.mk (((s.toList.dropWhile isJsWhitespace).reverse.dropWhile isJsWhitespace).reverse)

/-- Truthiness of an optional string (`undefined` and `""` are falsy). -/
def truthyStr : Option String → Bool
  | some s => !(s == "")
  | none => false

/-- Truthiness of an optional timestamp (`undefined` and `0` are falsy). -/
def truthyTime : Option Int → Bool
  | some t => !(t == 0)
  | none => false

/-- JS `a || b` for an optional string `a` and string default `b`. -/
def jsOrStr (a : Option String) (b : String) : String :=
  match a with
  | some s => if s == "" then b else s
  | none => b

/-- JS `a || b` where both operands may be `undefined`. -/
def jsOrOptStr (a b : Option String) : Option String :=
  match a with
  | some s => if s == "" then b else some s
  | none => b

/-- JS `s || d` for plain strings (`""` is falsy). -/
def jsOrS (s d : String) : String :=
  if s == "" then d else s

/-- JS `url.includes('http')` specialised to the fixed pattern `"http"`. -/
def hasHttp : List Char → Bool
  | 'h' :: 't' :: 't' :: 'p' :: _ => true
  | _ :: rest => hasHttp rest
  | [] => false

/-- Lookup in a JS object used as a string-keyed map (`m[k]`). -/
def jsGet {V : Type} (m : List (String × V)) (k : String) : Option V :=
  (m.find? (fun p => p.1 == k)).map (fun p => p.2)

/-- JS object assignment `m[k] = v`: an existing key is updated in place,
a new key is appended (JS string-key insertion order). -/
def jsSet {V : Type} (m : List (String × V)) (k : String) (v : V) : List (String × V) :=
  if m.any (fun p => p.1 == k) then
    m.map (fun p => if p.1 == k then (k, v) else p)
  else m ++ [(k, v)]

/-- `Object.keys` of the map model. -/
def keysOf {V : Type} (m : List (String × V)) : List String :=
  m.map (fun p => p.1)

/-! ## To-do store (`useTodos`) -/

inductive Priority where
  | low
  | medium
  | high
  deriving DecidableEq, Repr

structure TodoItem where
  id : String
  title : String
  notes : Option String := none
  done : Bool
  createdAt : Int
  updatedAt : Int
  due : Option String := none
  priority : Priority
  deriving DecidableEq, Repr

/-- The partial input accepted by `create`.  The store's TS signature omits
`done`, but at runtime any `done` value a caller smuggles in is simply never
read, which we model by carrying the field and ignoring it. -/
structure CreateData where
  title : Option String := none
  notes : Option String := none
  done : Option Bool := none
  priority : Option Priority := none
  due : Option String := none
  deriving DecidableEq, Repr

/-- `create(data)`: appends a fresh item; `nanoid()` and `Date.now()` are the
explicit `freshId` and `now` parameters. Title is `data.title?.trim() || 'Untitled'`,
priority is `data.priority || 'low'`, `done` is the literal `false`. -/
def create (freshId : String) (now : Int) (data : CreateData) (todos : List TodoItem) :
    List TodoItem :=
  todos ++
    [{ id := freshId
       title :=
         match data.title with
         | none => "Untitled"
         | some s => if jsTrim s == "" then "Untitled" else jsTrim s
       notes := data.notes
       done := false
       createdAt := now
       updatedAt := now
       priority := data.priority.getD Priority.low
       due := data.due }]

/-- `toggle(id)`: flips `done` and refreshes `updatedAt` on every item whose
id matches; other items are returned unchanged. -/
def toggle (id : String) (now : Int) (todos : List TodoItem) : List TodoItem :=
  todos.map (fun t => if t.id == id then { t with done := !t.done, updatedAt := now } else t)

/-- `Array.prototype.splice`'s start-index normalisation: a negative index is
taken from the end and clamped at `0`; a non-negative one is clamped at `len`. -/
def normStart (len : Nat) (i : Int) : Nat :=
  if i < 0 then (Int.ofNat len + i).toNat else min i.toNat len

/-- `reorder(from, to)` exactly as written in the store:

```
const copy = [...s.todos];
const [m] = copy.splice(from, 1);
copy.splice(to, 0, m);
```

There is no index validation.  The array elements are `Option α` because a
JS array cell can hold `undefined`: when `from` is out of range, `splice`
removes nothing, the destructuring makes `m = undefined`, and the second
splice inserts that `undefined` into the array. -/
def reorder {α : Type} (fromIdx toIdx : Int) (todos : List (Option α)) : List (Option α) :=
  let s1 := normStart todos.length fromIdx
  let dc := min 1 (todos.length - s1)
  let removed := (todos.drop s1).take dc
  let rest := todos.take s1 ++ todos.drop (s1 + dc)
  let m : Option α := removed.head?.join
  let s2 := normStart rest.length toIdx
  rest.take s2 ++ m :: rest.drop s2

/-- A sequence of `reorder` calls applied in order. -/
def applyReorders {α : Type} (calls : List (Int × Int)) (l : List (Option α)) :
    List (Option α) :=
  calls.foldl (fun acc c => reorder c.1 c.2 acc) l

/-! ## Pomodoro store (`useProductivity`)

`Date.now()` is the explicit `now` parameter; every read inside one event
handler uses the same `now` (the JS calls happen within the same tick).
The `setInterval` handle is unobservable, so `timerInterval` is modelled by
the boolean `timerActive` (a live browser interval id is nonzero, hence
truthy).  `updateTimer` re-enters `startPomodoro` when a focus session
completes, so both take a `fuel` argument bounding the re-entrancy depth;
one unit of fuel is consumed per `updateTimer` invocation. -/

structure PomodoroSession where
  id : String
  taskId : Option String := none
  startTime : Int
  endTime : Option Int := none
  duration : Int
  completed : Bool := false
  deriving DecidableEq, Repr

/-- The slice of the productivity store that the pomodoro/timer actions read
or write (`goals` and the task/streak statistics are untouched by them). -/
structure ProdState where
  totalPomodoroSessions : Nat := 0
  totalFocusTime : Int := 0
  pomodoroSessions : List PomodoroSession := []
  currentPomodoro : Option PomodoroSession := none
  timeLeft : Int := 0
  isBreak : Bool := false
  sessionCount : Nat := 0
  timerActive : Bool := false
  deriving DecidableEq, Repr

/-- `clearTimerInterval()`: clears the interval if one is set. -/
def clearTimerInterval (s : ProdState) : ProdState :=
  if s.timerActive then { s with timerActive := false } else s

/-- `setTimerInterval(interval)`: records the freshly created interval. -/
def setTimerInterval (s : ProdState) : ProdState :=
  { s with timerActive := true }

/-- `completePomodoro()`: finalizes the current session (if any), appends it
to history and bumps the session statistics. -/
def completePomodoro (now : Int) (s : ProdState) : ProdState :=
  match s.currentPomodoro with
  | none => s
  | some cp =>
    let s1 := clearTimerInterval s
    let completedSession := { cp with endTime := some now, completed := true }
    { s1 with
      currentPomodoro := none
      timeLeft := 0
      pomodoroSessions := s.pomodoroSessions ++ [completedSession]
      totalPomodoroSessions := s.totalPomodoroSessions + 1
      totalFocusTime := s.totalFocusTime + cp.duration }

/-- The synchronous part of `startPomodoro(taskId, duration)`: clears any
running timer, installs a fresh session with `startTime = now`, sets
`timeLeft` and starts the interval.  (`startPomodoro` then immediately calls
`updateTimer` once; see below.) -/
def startSession (taskId : Option String) (duration now : Int) (s : ProdState) : ProdState :=
  let s1 := clearTimerInterval s
  let session : PomodoroSession :=
    { id := "pomodoro-" ++ toString now
      taskId := taskId
      startTime := now
      endTime := none
      duration := duration
      completed := false }
  let s2 := { s1 with currentPomodoro := some session, timeLeft := duration * 60 * 1000 }
  setTimerInterval s2

/-- `updateTimer()`: the ~1 s tick.  Recomputes the remaining time from the
wall clock; at zero it completes the session, bumps `sessionCount`, and if
the session was a focus one auto-starts a break (the re-entrant
`startPomodoro` call is `startSession` followed by the recursive tick) whose
length is 15 minutes when `sessionCount > 0 && (sessionCount + 1) % 4 === 0`
and 5 minutes otherwise; a completed break returns the controller to idle. -/
def updateTimer : Nat → Int → ProdState → ProdState
  | 0, _, s => s
  | Nat.succ fuel0, now, s =>
    match s.currentPomodoro with
    | none => { s with timeLeft := 0 }
    | some cp =>
      if truthyTime cp.endTime && !cp.completed then s
      else
        let elapsed := now - cp.startTime
        let totalDuration := cp.duration * 60 * 1000
        let remaining := max 0 (totalDuration - elapsed)
        let s1 := { s with timeLeft := remaining }
        if remaining = 0 then
          let s2 := completePomodoro now s1
          let s3 := { s2 with sessionCount := s.sessionCount + 1 }
          if !s.isBreak then
            let s4 := { s3 with isBreak := true }
            let breakDuration : Int :=
              if s.sessionCount > 0 && (s.sessionCount + 1) % 4 == 0 then 15 else 5
            updateTimer fuel0 now (startSession none breakDuration now s4)
          else { s3 with isBreak := false }
        else s1

/-- `startPomodoro(taskId, duration)`: installs the session and immediately
calls `updateTimer` once. -/
def startPomodoro (fuel : Nat) (taskId : Option String) (duration : Int) (now : Int)
    (s : ProdState) : ProdState :=
  updateTimer fuel now (startSession taskId duration now s)

/-- `pausePomodoro()`: when a session is running (`endTime` falsy), stops the
timer and records `endTime = now` as the pause marker. -/
def pausePomodoro (now : Int) (s : ProdState) : ProdState :=
  match s.currentPomodoro with
  | some cp =>
    if !truthyTime cp.endTime then
      let s1 := clearTimerInterval s
      { s1 with currentPomodoro := some ({ cp with endTime := some now }) }
    else s
  | none => s

/-- `resumePomodoro()`: when paused (`endTime` truthy), shifts `startTime`
forward by the paused duration, clears the marker and restarts the interval.
It does not call `updateTimer` itself; `timeLeft` is refreshed by the next
tick. -/
def resumePomodoro (now : Int) (s : ProdState) : ProdState :=
  match s.currentPomodoro with
  | some cp =>
    if truthyTime cp.endTime then
      let pausedDuration := now - cp.endTime.getD 0
      let cp2 := { cp with startTime := cp.startTime + pausedDuration, endTime := none }
      let s1 := { s with currentPomodoro := some cp2 }
      setTimerInterval s1
    else s
  | none => s

/-! ## Playlist store (`usePlaylists`)

The browser `URL` constructor plus `searchParams` is a platform built-in, not
repository code; it is passed in as `parseURL : String → Option (List (String
× String))` (`none` when `new URL` would throw, otherwise the query pairs in
order; `searchParams.get` returns the first match).  The network is passed in
as the list of responses the paginated `playlistItems` endpoint would return
(`PageResp`) plus the resolved metadata title (`metaTitle`); each modelled
operation also returns the number of network requests it issued. -/

structure PlaylistVideo where
  id : String
  title : String
  thumbnail : Option String := none
  channelTitle : Option String := none
  position : Int
  done : Bool
  revisit : Bool
  deriving DecidableEq, Repr

structure Playlist where
  id : String
  url : String
  title : String
  createdAt : Int
  videos : List (String × PlaylistVideo)
  order : List String
  fetching : Bool := false
  error : Option String := none
  fetchedAt : Option Int := none
  deriving DecidableEq, Repr

structure PlaylistsState where
  playlists : List (String × Playlist)
  order : List String
  deriving DecidableEq, Repr

/-- The character class of the bare-id regex `/^[A-Za-z0-9_-]{10,}$/`. -/
def isIdChar (c : Char) : Bool :=
  c.isAlpha || c.isDigit || c == '_' || c == '-'

/-- `/^[A-Za-z0-9_-]{10,}$/.test(url)`. -/
def bareIdTest (url : String) : Bool :=
  decide (10 ≤ url.length) && url.toList.all isIdChar

/-- `extractPlaylistId(url)`: a bare id not containing `"http"` is accepted
trimmed; otherwise the trimmed input is parsed as a URL and the first `list`
query parameter is returned (`""` and a missing parameter give `null`, as
does a parse failure). -/
def extractPlaylistId (parseURL : String → Option (List (String × String)))
    (url : String) : Option String :=
  if bareIdTest url && !hasHttp url.toList then some (jsTrim url)
  else
    match parseURL (jsTrim url) with
    | none => none
    | some params =>
      match jsGet params "list" with
      | none => none
      | some v => if v == "" then none else some v

/-- One item of a `playlistItems` page (the snippet fields the code reads). -/
structure YTItem where
  title : String
  position : Int
  videoId : Option String := none
  thumbMedium : Option String := none
  thumbDefault : Option String := none
  channelTitle : Option String := none
  deriving DecidableEq, Repr

/-- One scripted response of the `playlistItems` endpoint. -/
inductive PageResp where
  | ok (items : List YTItem) (nextPageToken : Option String)
  | httpError (status : Nat) (body : String)
  | threw (msg : String)
  deriving DecidableEq, Repr

/-- Translation of one returned item into a `PlaylistVideo`: the id falls back
to `playlistId-position` when `resourceId?.videoId` is falsy, the thumbnail is
`medium?.url || default?.url`, and `done`/`revisit` default to `false`. -/
def toVideo (playlistId : String) (it : YTItem) : PlaylistVideo :=
  { id := jsOrStr it.videoId (playlistId ++ "-" ++ toString it.position)
    title := it.title
    position := it.position
    thumbnail := jsOrOptStr it.thumbMedium it.thumbDefault
    channelTitle := it.channelTitle
    done := false
    revisit := false }

/-- Result of the page loop: accumulated videos, the recorded error (if any),
the store state threaded through `onBatch`, and the request count. -/
structure RunOut (σ : Type) where
  videos : List PlaylistVideo
  error : Option String
  st : σ
  reqs : Nat

/-- The `while (true)` page loop of `fetchAllPlaylistVideos`.  Each iteration
issues one request; a non-ok response returns `Fetch failed: <status> <text>`,
a thrown request returns `e?.message || 'Unknown error'`, and an ok response
is mapped through `toVideo`, accumulated, handed to `onBatch`, and the loop
continues only while `nextPageToken` is truthy.  The `[]` case stands for an
exhausted response script and is never reached in the runs stated below. -/
def runPages {σ : Type} (playlistId : String) (onBatch : List PlaylistVideo → σ → σ) :
    List PageResp → List PlaylistVideo → σ → Nat → RunOut σ
  | [], acc, st, reqs => { videos := acc, error := none, st := st, reqs := reqs }
  | p :: rest, acc, st, reqs =>
    match p with
    | PageResp.httpError status body =>
      { videos := acc
        error := some ("Fetch failed: " ++ toString status ++ " " ++ body)
        st := st
        reqs := reqs + 1 }
    | PageResp.threw msg =>
      { videos := acc
        error := some (jsOrS msg "Unknown error")
        st := st
        reqs := reqs + 1 }
    | PageResp.ok items tok =>
      let batch := items.map (toVideo playlistId)
      let acc2 := acc ++ batch
      let st2 := onBatch batch st
      if truthyStr tok then runPages playlistId onBatch rest acc2 st2 (reqs + 1)
      else { videos := acc2, error := none, st := st2, reqs := reqs + 1 }

/-- What `fetchAllPlaylistVideos` resolves to. -/
structure FetchOutcome where
  videos : List PlaylistVideo
  title : Option String := none
  error : Option String := none
  deriving DecidableEq, Repr

/-- `fetchAllPlaylistVideos(playlistId, apiKey, onBatch)`: a falsy key fails
before any request; otherwise the metadata request is issued first (one
request, resolving to `metaTitle`) and the page loop runs.  On the success
path the metadata promise is awaited, so the outcome's title is `metaTitle`;
the early error returns happen before that await, which we model as a still
`none` title. -/
def fetchAllPlaylistVideos {σ : Type} (playlistId : String) (apiKey : Option String)
    (metaTitle : Option String) (pages : List PageResp)
    (onBatch : List PlaylistVideo → σ → σ) (st : σ) : FetchOutcome × σ × Nat :=
  if !truthyStr apiKey then
    ({ videos := [], title := none, error := some "API key required" }, st, 0)
  else
    let r := runPages playlistId onBatch pages [] st 1
    match r.error with
    | none => ({ videos := r.videos, title := metaTitle, error := none }, r.st, r.reqs)
    | some e => ({ videos := r.videos, title := none, error := some e }, r.st, r.reqs)

/-- The body of the incremental-update `set` callback shared by
`addPlaylistByUrl` and `refetchPlaylist`: every batch video overwrites its
slot in `videos`, and the batch's ids are appended to `order` unconditionally. -/
def mergeBatch (pl : Playlist) (batch : List PlaylistVideo) : Playlist :=
  { pl with
    videos := batch.foldl (fun m v => jsSet m v.id v) pl.videos
    order := pl.order ++ batch.map (fun b => b.id) }

/-- The `onBatch` closure passed to `fetchAllPlaylistVideos`: a missing
playlist entry makes the update a no-op. -/
def onBatchUpdate (pid : String) (batch : List PlaylistVideo) (st : PlaylistsState) :
    PlaylistsState :=
  match jsGet st.playlists pid with
  | none => st
  | some pl => { st with playlists := jsSet st.playlists pid (mergeBatch pl batch) }

structure AddResult where
  ok : Bool
  error : Option String := none
  deriving DecidableEq, Repr

/-- `addPlaylistByUrl(url)`: extract the id (failure → `InvalidInput` result
before any side effect); an id already in the store returns `{ ok: true }`
immediately; otherwise a `Loading...` placeholder is registered optimistically,
the fetch runs with the incremental merge, and a final `set` records title,
`fetching = false`, the error and `fetchedAt`. -/
def addPlaylistByUrl (parseURL : String → Option (List (String × String)))
    (apiKey : Option String) (metaTitle : Option String) (pages : List PageResp)
    (now : Int) (url : String) (st : PlaylistsState) : AddResult × PlaylistsState × Nat :=
  match extractPlaylistId parseURL url with
  | none => ({ ok := false, error := some "Invalid playlist URL or ID" }, st, 0)
  | some pid =>
    match jsGet st.playlists pid with
    | some _ => ({ ok := true, error := none }, st, 0)
    | none =>
      let placeholder : Playlist :=
        { id := pid, url := url, title := "Loading...", createdAt := now,
          videos := [], order := [], fetching := true }
      let st1 : PlaylistsState :=
        { playlists := jsSet st.playlists pid placeholder, order := st.order ++ [pid] }
      let fr := fetchAllPlaylistVideos pid apiKey metaTitle pages (onBatchUpdate pid) st1
      let res := fr.1
      let st2 := fr.2.1
      let n := fr.2.2
      let st3 :=
        match jsGet st2.playlists pid with
        | none => st2
        | some pl =>
          let plFinal :=
            { pl with
              title := jsOrStr res.title (jsOrS pl.title "Untitled Playlist")
              fetching := false
              error := res.error
              fetchedAt := some now }
          { st2 with playlists := jsSet st2.playlists pid plFinal }
      (({ ok := res.error.isNone, error := res.error } : AddResult), st3, n)

/-! ### Concrete instances used by counterexamples and witnesses -/

def sampleTodoA : TodoItem :=
  { id := "a", title := "A", done := false, createdAt := 0, updatedAt := 0,
    priority := Priority.low }

def sampleTodoB : TodoItem :=
  { id := "b", title := "B", done := true, createdAt := 0, updatedAt := 0,
    priority := Priority.medium }

def sampleTodoC : TodoItem :=
  { id := "c", title := "C", done := false, createdAt := 0, updatedAt := 0,
    priority := Priority.high }

/-- A 1-minute focus session started at `t = 1000` ms. -/
def c4Started : ProdState := startPomodoro 2 none 1 1000 {}

/-- ... paused immediately (still at `t = 1000`). -/
def c4Paused : ProdState := pausePomodoro 1000 c4Started

/-- ... resumed after a 10-second gap (`t = 11000`). -/
def c4Resumed : ProdState := resumePomodoro 11000 c4Paused

/-- A 25-minute focus session started at `t = 0`. -/
def focusSession : PomodoroSession :=
  { id := "p", startTime := 0, duration := 25, completed := false }

/-- A running focus session with three completions already on the counter. -/
def threeDoneState : ProdState :=
  { currentPomodoro := some focusSession, timeLeft := 1, isBreak := false,
    sessionCount := 3, timerActive := true }

def dupVideo : PlaylistVideo :=
  { id := "v1", title := "first", position := 0, done := false, revisit := false }

/-- Same id as `dupVideo`, different content. -/
def dupVideoB : PlaylistVideo :=
  { id := "v1", title := "updated", position := 0, done := false, revisit := false }

def dupPlaylist : Playlist :=
  { id := "PL", url := "u", title := "T", createdAt := 0,
    videos := [("v1", dupVideo)], order := ["v1"] }

def sampleItem1 : YTItem := { title := "t1", position := 0, videoId := some "v1" }

def sampleItem2 : YTItem := { title := "t2", position := 1, videoId := some "v2" }

/-! ## Supporting lemmas -/

theorem jsGet_jsSet_self {V : Type} (m : List (String × V)) (k : String) (v : V) :
    jsGet (jsSet m k v) k = some v := by
  induction m with
  | nil => simp [jsGet, jsSet]
  | cons p t ih =>
    by_cases hpk : p.1 = k
    · simp [jsGet, jsSet, hpk]
    · by_cases hta : t.any (fun q => q.1 == k) = true
      · simp only [jsSet, hta, List.any_cons, Bool.or_true, if_true] at ih ⊢
        simpa [jsGet, hpk] using ih
      · simp only [jsSet, hta, List.any_cons, Bool.or_false,
          show (p.1 == k) = false by simpa using hpk, if_false] at ih ⊢
        simpa [jsGet, hpk] using ih

theorem keysOf_jsSet_of_any {V : Type} (m : List (String × V)) (k : String) (v : V)
    (h : m.any (fun p => p.1 == k) = true) : keysOf (jsSet m k v) = keysOf m := by
  simp only [jsSet, h, if_true, keysOf, List.map_map]
  refine List.map_congr_left ?_
  intro p _
  by_cases hpk : p.1 = k <;> simp [hpk]

theorem foldl_jsSet_eq_append (batch : List PlaylistVideo) (m : List (String × PlaylistVideo))
    (hnd : (batch.map (fun v => v.id)).Nodup)
    (hdisj : ∀ v ∈ batch, ¬ v.id ∈ keysOf m) :
    batch.foldl (fun acc v => jsSet acc v.id v) m = m ++ batch.map (fun v => (v.id, v)) := by
  induction batch generalizing m with
  | nil => simp
  | cons v t ih =>
    have hvm : m.any (fun p => p.1 == v.id) = false := by
      rw [List.any_eq_false]
      intro p hp hbeq
      have hmem := hdisj v (List.mem_cons_self v t)
      refine hmem ?_
      simp only [keysOf, List.mem_map]
      exact ⟨p, hp, by simpa using hbeq⟩
    have hstep : jsSet m v.id v = m ++ [(v.id, v)] := by simp [jsSet, hvm]
    simp only [List.foldl_cons, hstep]
    rw [ih (m ++ [(v.id, v)]) (by simpa using hnd.of_cons)]
    · simp
    · intro w hw
      simp only [keysOf, List.map_append, List.mem_append, List.map_cons, List.map_nil,
        List.mem_singleton, not_or]
      constructor
      · have := hdisj w (List.mem_cons_of_mem v hw)
        simpa [keysOf] using this
      · have : ¬ v.id ∈ t.map (fun x => x.id) := by
          simpa using (List.nodup_cons.mp hnd).1
        intro hwv
        exact this (by simpa [hwv] using List.mem_map_of_mem (fun x => x.id) hw)

theorem jsTrim_eq_empty_of_all_ws (s : String)
    (h : ∀ c ∈ s.toList, isJsWhitespace c = true) : jsTrim s = "" := by
  have h1 : s.toList.dropWhile isJsWhitespace = [] := List.dropWhile_eq_nil_iff.mpr h
  unfold jsTrim
  rw [h1]
  rfl

/-! ## Claim C8: toggling twice restores `done`, bumps `updatedAt`, absent id is a no-op -/

/-- C8: for every present todo id, `toggle(id)` applied twice returns every
item's `done` flag to its original value; with the wall clock strictly
advancing across the calls, each call strictly increases the matched item's
`updatedAt`; and `toggle` with an id no item carries is a silent no-op. -/
theorem toggle_twice_restores_done
    (todos : List TodoItem) (id : String) (n1 n2 : Int) :
    (toggle id n2 (toggle id n1 todos)).map (fun t => t.done) =
      todos.map (fun t => t.done) ∧
    (∀ i : Nat, ∀ t : TodoItem, todos[i]? = some t → t.id = id →
      t.updatedAt < n1 → n1 < n2 →
      ∃ t1 t2, (toggle id n1 todos)[i]? = some t1 ∧
        (toggle id n2 (toggle id n1 todos))[i]? = some t2 ∧
        t.updatedAt < t1.updatedAt ∧ t1.updatedAt < t2.updatedAt ∧
        t2.done = t.done) ∧
    ((∀ t ∈ todos, ¬ t.id = id) → toggle id n1 todos = todos) := by
  refine ⟨?_, ?_, ?_⟩
  · simp only [toggle, List.map_map]
    refine List.map_congr_left ?_
    intro t _
    by_cases h : t.id = id <;> simp [h]
  · intro i t hit hid h1 h2
    have e1 : (toggle id n1 todos)[i]? =
        some ({ t with done := !t.done, updatedAt := n1 }) := by
      simp [toggle, List.getElem?_map, hit, hid]
    have e2 : (toggle id n2 (toggle id n1 todos))[i]? =
        some ({ t with done := !(!t.done), updatedAt := n2 }) := by
      simp [toggle, List.getElem?_map, hit, hid]
    exact ⟨_, _, e1, e2, by simpa using h1, by simpa using h2, by simp⟩
  · intro h
    have : ∀ t ∈ todos, (if t.id == id then
        { t with done := !t.done, updatedAt := n1 } else t) = t := by
      intro t ht
      simp [h t ht]
    simpa [toggle] using List.map_congr_left this

/-! ## Claim C10: `create` defaults and appends -/

/-- C10: every created item has `done = false` regardless of any `done` in the
partial input, a non-empty title (missing / whitespace-only titles become
`"Untitled"` after trimming, non-blank titles are kept trimmed), and `create`
appends it at the end without modifying any existing item. -/
theorem create_appends_defaulted_item
    (freshId : String) (now : Int) (data : CreateData) (todos : List TodoItem) :
    ∃ it : TodoItem,
      create freshId now data todos = todos ++ [it] ∧
      it.done = false ∧
      ¬ it.title = "" ∧
      (data.title = none → it.title = "Untitled") ∧
      (∀ s, data.title = some s → (∀ c ∈ s.toList, isJsWhitespace c = true) →
        it.title = "Untitled") ∧
      (∀ s, data.title = some s → ¬ jsTrim s = "" → it.title = jsTrim s) ∧
      it.id = freshId := by
  refine ⟨_, rfl, rfl, ?_, ?_, ?_, ?_, rfl⟩
  · cases hti : data.title with
    | none => simp
    | some s =>
      by_cases h : jsTrim s = ""
      · simp [h]
      · simp [h]
  · intro h
    simp [h]
  · intro s hs hws
    simp [hs, jsTrim_eq_empty_of_all_ws s hws]
  · intro s hs h
    simp [hs, h]

/-! ## Claim C2: the per-page batch merge and `order` duplication -/

/-- C2, counterexample: merging a batch whose video id is already present
does append a second occurrence of that id to `order` (the claim says it must
not), even though the `videos` entry is overwritten as claimed. -/
theorem mergeBatch_duplicates_order_entry :
    dupPlaylist.order.count "v1" = 1 ∧
    (mergeBatch dupPlaylist [dupVideoB]).order.count "v1" = 2 ∧
    jsGet (mergeBatch dupPlaylist [dupVideoB]).videos "v1" = some dupVideoB := by
  decide

/-- C2, amended: the batch merge overwrites an already-present id's entry in
`videos` (the key set does not grow), but appends the batch's ids to `order`
unconditionally, so an id already present in `order` gains an additional
occurrence rather than keeping a single one. -/
theorem mergeBatch_overwrites_videos_appends_order
    (pl : Playlist) (batch : List PlaylistVideo) :
    (mergeBatch pl batch).order = pl.order ++ batch.map (fun v => v.id) ∧
    (∀ k, k ∈ pl.order → k ∈ batch.map (fun v => v.id) →
      2 ≤ (mergeBatch pl batch).order.count k) ∧
    (∀ v : PlaylistVideo,
      (mergeBatch pl [v]).videos = jsSet pl.videos v.id v ∧
      jsGet (mergeBatch pl [v]).videos v.id = some v ∧
      (v.id ∈ keysOf pl.videos →
        keysOf (mergeBatch pl [v]).videos = keysOf pl.videos)) := by
  refine ⟨rfl, ?_, ?_⟩
  · intro k hk1 hk2
    have h1 : 1 ≤ pl.order.count k := List.count_pos_iff.mpr hk1
    have h2 : 1 ≤ (batch.map (fun v => v.id)).count k := List.count_pos_iff.mpr hk2
    simpa [mergeBatch, List.count_append] using Nat.add_le_add h1 h2
  · intro v
    refine ⟨rfl, jsGet_jsSet_self pl.videos v.id v, ?_⟩
    intro hv
    refine keysOf_jsSet_of_any pl.videos v.id v ?_
    simp only [keysOf, List.mem_map] at hv
    obtain ⟨p, hp, hpk⟩ := hv
    simp only [List.any_eq_true]
    exact ⟨p, hp, by simpa using hpk⟩

/-- C2, witness: the amended statement evaluated on the concrete duplicate
merge. -/
theorem mergeBatch_overwrites_videos_appends_order_witness :
    2 ≤ (mergeBatch dupPlaylist [dupVideoB]).order.count "v1" ∧
    jsGet (mergeBatch dupPlaylist [dupVideoB]).videos "v1" = some dupVideoB ∧
    keysOf (mergeBatch dupPlaylist [dupVideoB]).videos = keysOf dupPlaylist.videos := by
  have h := mergeBatch_overwrites_videos_appends_order dupPlaylist [dupVideoB]
  exact ⟨h.2.1 "v1" (by decide) (by decide),
    (h.2.2 dupVideoB).2.1,
    (h.2.2 dupVideoB).2.2 (by decide)⟩

/-- C8, witness: the statement evaluated on a concrete one-item list, for a
present id (both conjuncts) and for an absent id (the no-op conjunct). -/
theorem toggle_twice_restores_done_witness :
    (toggle "a" 2 (toggle "a" 1 [sampleTodoA])).map (fun t => t.done) =
      [sampleTodoA].map (fun t => t.done) ∧
    (∃ t1 t2, (toggle "a" 1 [sampleTodoA])[0]? = some t1 ∧
      (toggle "a" 2 (toggle "a" 1 [sampleTodoA]))[0]? = some t2 ∧
      sampleTodoA.updatedAt < t1.updatedAt ∧ t1.updatedAt < t2.updatedAt ∧
      t2.done = sampleTodoA.done) ∧
    toggle "nope" 1 [sampleTodoA] = [sampleTodoA] := by
  have h := toggle_twice_restores_done [sampleTodoA] "a" 1 2
  have h2 := toggle_twice_restores_done [sampleTodoA] "nope" 1 2
  exact ⟨h.1, h.2.1 0 sampleTodoA rfl rfl (by decide) (by decide), h2.2.2 (by decide)⟩

/-- C10, witness: creating from a whitespace-only title (and a smuggled
`done := some true`) appends an `"Untitled"`, not-done item. -/
theorem create_appends_defaulted_item_witness :
    ∃ it : TodoItem,
      create "fresh" 5 ({ title := some "   ", done := some true }) [sampleTodoA] =
        [sampleTodoA] ++ [it] ∧
      it.done = false ∧ ¬ it.title = "" ∧ it.title = "Untitled" ∧ it.id = "fresh" := by
  obtain ⟨it, h1, h2, h3, _, h5, _, h7⟩ :=
    create_appends_defaulted_item "fresh" 5
      ({ title := some "   ", done := some true }) [sampleTodoA]
  exact ⟨it, h1, h2, h3, h5 "   " rfl (by decide), h7⟩

/-! ## Claim C9: re-adding an existing playlist is an idempotent no-op -/

/-- C9: adding a playlist whose extracted id is already present in the store
returns `{ ok: true }` immediately, issues zero network requests, and leaves
the playlists mapping and the playlist order unchanged. -/
theorem addPlaylistByUrl_existing_is_noop
    (parseURL : String → Option (List (String × String)))
    (apiKey metaTitle : Option String) (pages : List PageResp) (now : Int)
    (url pid : String) (st : PlaylistsState) (pl : Playlist)
    (hex : extractPlaylistId parseURL url = some pid)
    (hpl : jsGet st.playlists pid = some pl) :
    addPlaylistByUrl parseURL apiKey metaTitle pages now url st =
      ({ ok := true, error := none }, st, 0) := by
  simp [addPlaylistByUrl, hex, hpl]

/-- C9, witness: re-adding `dupPlaylist` by a URL that resolves to its id. -/
theorem addPlaylistByUrl_existing_is_noop_witness :
    addPlaylistByUrl (fun _ => some [("list", "PL")]) (some "KEY") none [] 7
        "https://example.com/playlist?list=PL"
        ({ playlists := [("PL", dupPlaylist)], order := ["PL"] }) =
      ({ ok := true, error := none },
        ({ playlists := [("PL", dupPlaylist)], order := ["PL"] } : PlaylistsState), 0) :=
  addPlaylistByUrl_existing_is_noop _ _ _ _ _ _ "PL" _ dupPlaylist (by decide) (by decide)

/-! ## Claim C7: invalid input is rejected before any side effect -/

/-- C7: an input that is neither an accepted bare identifier nor a URL with a
truthy `list` query parameter yields the `InvalidInput` result (`ok = false`,
`error = "Invalid playlist URL or ID"`) with zero network requests and the
store state returned unchanged — the rejection happens before the optimistic
placeholder registration. -/
theorem addPlaylistByUrl_invalid_input_no_side_effects
    (parseURL : String → Option (List (String × String)))
    (apiKey metaTitle : Option String) (pages : List PageResp) (now : Int)
    (url : String) (st : PlaylistsState)
    (hbare : (bareIdTest url && !hasHttp url.toList) = false)
    (hurl : parseURL (jsTrim url) = none ∨
      ∃ ps, parseURL (jsTrim url) = some ps ∧
        (jsGet ps "list" = none ∨ jsGet ps "list" = some "")) :
    addPlaylistByUrl parseURL apiKey metaTitle pages now url st =
      ({ ok := false, error := some "Invalid playlist URL or ID" }, st, 0) := by
  have hex : extractPlaylistId parseURL url = none := by
    unfold extractPlaylistId
    simp only [hbare, Bool.false_eq_true, if_false]
    rcases hurl with h | ⟨ps, hps, hlist⟩
    · simp [h]
    · rcases hlist with h2 | h2 <;> simp [hps, h2]
  simp [addPlaylistByUrl, hex]

/-- C7, witness: the spec's own example input, with a URL parser that rejects
it (it is not a parseable URL). -/
theorem addPlaylistByUrl_invalid_input_witness :
    addPlaylistByUrl (fun _ => none) (some "KEY") none [] 7
        "not a url, no list param" ({ playlists := [], order := [] }) =
      ({ ok := false, error := some "Invalid playlist URL or ID" },
        ({ playlists := [], order := [] } : PlaylistsState), 0) :=
  addPlaylistByUrl_invalid_input_no_side_effects _ _ _ _ _ _ _ (by decide) (Or.inl rfl)

/-! ## Claims C3 and C6: `reorder` -/

/-- Helper: with both indices valid, `reorder` removes exactly the element at
`fromIdx` and reinserts it, so the result is a permutation of the input. -/
theorem reorder_perm_of_valid {α : Type} (l : List (Option α)) (f t : Int)
    (hf0 : 0 ≤ f) (hf : f < (l.length : Int)) (ht0 : 0 ≤ t) (ht : t < (l.length : Int)) :
    (reorder f t l).Perm l := by
  have hfn : f.toNat < l.length := by omega
  have hs1 : normStart l.length f = f.toNat := by
    unfold normStart
    rw [if_neg (by omega)]
    omega
  have hdc : min 1 (l.length - f.toNat) = 1 := by omega
  have hdrop : l.drop f.toNat = l[f.toNat] :: l.drop (f.toNat + 1) :=
    (List.getElem_cons_drop l f.toNat hfn).symm
  have hs2 : normStart ((l.take f.toNat ++ l.drop (f.toNat + 1)).length) t = t.toNat := by
    unfold normStart
    rw [if_neg (by omega)]
    simp only [List.length_append, List.length_take, List.length_drop]
    omega
  simp only [reorder, hs1, hdc, hdrop, List.take_succ_cons, List.take_zero,
    List.head?_cons, Option.join, Option.some_bind, id_eq, hs2]
  have p1 : ((l.take f.toNat ++ l.drop (f.toNat + 1)).take t.toNat ++
      l[f.toNat] :: (l.take f.toNat ++ l.drop (f.toNat + 1)).drop t.toNat).Perm
      (l[f.toNat] :: (l.take f.toNat ++ l.drop (f.toNat + 1))) := by
    have base : ((l.take f.toNat ++ l.drop (f.toNat + 1)).take t.toNat ++
        l[f.toNat] :: (l.take f.toNat ++ l.drop (f.toNat + 1)).drop t.toNat).Perm
        (l[f.toNat] :: ((l.take f.toNat ++ l.drop (f.toNat + 1)).take t.toNat ++
          (l.take f.toNat ++ l.drop (f.toNat + 1)).drop t.toNat)) := List.perm_middle
    rwa [List.take_append_drop] at base
  have p2 : l.Perm (l[f.toNat] :: (l.take f.toNat ++ l.drop (f.toNat + 1))) := by
    have base : (l.take f.toNat ++ l[f.toNat] :: l.drop (f.toNat + 1)).Perm
        (l[f.toNat] :: (l.take f.toNat ++ l.drop (f.toNat + 1))) := List.perm_middle
    have e1 : l.take f.toNat ++ l[f.toNat] :: l.drop (f.toNat + 1) = l := by
      rw [← hdrop, List.take_append_drop]
    rwa [e1] at base
  exact p1.trans p2.symm

/-- C3, counterexample: `reorder(2, 0)` on a two-element list is NOT ignored
although `fromIndex = 2` is not a valid position: JS `splice` removes nothing,
the destructuring yields `m = undefined`, and the second splice inserts that
`undefined`, so the result grows and carries an undefined entry. -/
theorem reorder_invalid_index_not_ignored :
    reorder 2 0 [some sampleTodoA, some sampleTodoB] =
      [none, some sampleTodoA, some sampleTodoB] ∧
    ¬ reorder 2 0 [some sampleTodoA, some sampleTodoB] =
      [some sampleTodoA, some sampleTodoB] ∧
    (none : Option TodoItem) ∈ reorder 2 0 [some sampleTodoA, some sampleTodoB] := by
  decide

/-- C3, amended: a `reorder` call with both indices valid positions always
yields a permutation of the previous list (no element duplicated, lost, or
replaced by an undefined entry); a call with an invalid index, however, is
not ignored — it can insert an `undefined` entry (see the counterexample). -/
theorem reorder_valid_indices_perm {α : Type} (l : List (Option α)) (f t : Int)
    (hf0 : 0 ≤ f) (hf : f < (l.length : Int)) (ht0 : 0 ≤ t) (ht : t < (l.length : Int)) :
    (reorder f t l).Perm l ∧
    ((∀ x ∈ l, x.isSome) → ∀ x ∈ reorder f t l, x.isSome) := by
  have h := reorder_perm_of_valid l f t hf0 hf ht0 ht
  exact ⟨h, fun hall x hx => hall x (h.mem_iff.mp hx)⟩

/-- C3, witness: moving the head of a fully-defined three-element list to the
end. -/
theorem reorder_valid_indices_perm_witness :
    (reorder 0 2 [some sampleTodoA, some sampleTodoB, some sampleTodoC]).Perm
      [some sampleTodoA, some sampleTodoB, some sampleTodoC] ∧
    ∀ x ∈ reorder 0 2 [some sampleTodoA, some sampleTodoB, some sampleTodoC], x.isSome := by
  have h := reorder_valid_indices_perm
    [some sampleTodoA, some sampleTodoB, some sampleTodoC] 0 2
    (by decide) (by decide) (by decide) (by decide)
  exact ⟨h.1, h.2 (by decide)⟩

/-- Helper: a whole sequence of valid `reorder` calls keeps a permutation. -/
theorem applyReorders_perm {α : Type} (calls : List (Int × Int)) :
    ∀ (l : List (Option α)),
      (∀ c ∈ calls, 0 ≤ c.1 ∧ c.1 < (l.length : Int) ∧
        0 ≤ c.2 ∧ c.2 < (l.length : Int)) →
      (applyReorders calls l).Perm l := by
  induction calls with
  | nil =>
    intro l _
    simp [applyReorders]
  | cons c cs ih =>
    intro l h
    have hc := h c (List.mem_cons_self c cs)
    have hstep := reorder_perm_of_valid l c.1 c.2 hc.1 hc.2.1 hc.2.2.1 hc.2.2.2
    have hrec := ih (reorder c.1 c.2 l) (by
      intro c2 hc2
      rw [hstep.length_eq]
      exact h c2 (List.mem_cons_of_mem c hc2))
    exact hrec.trans hstep

/-- C6: any sequence of `reorder` calls whose indices are all valid positions
leaves the todo list a permutation of the original, and in particular
permutes (hence preserves) the multiset of item ids. -/
theorem applyReorders_valid_preserves_ids
    (calls : List (Int × Int)) (l : List (Option TodoItem))
    (h : ∀ c ∈ calls, 0 ≤ c.1 ∧ c.1 < (l.length : Int) ∧
      0 ≤ c.2 ∧ c.2 < (l.length : Int)) :
    (applyReorders calls l).Perm l ∧
    ((applyReorders calls l).map (Option.map (fun x => x.id))).Perm
      (l.map (Option.map (fun x => x.id))) := by
  have main := applyReorders_perm calls l h
  exact ⟨main, main.map (Option.map (fun x => x.id))⟩

/-- C6, witness: two valid reorders of a three-element list. -/
theorem applyReorders_valid_preserves_ids_witness :
    (applyReorders [(0, 2), (1, 0)]
        [some sampleTodoA, some sampleTodoB, some sampleTodoC]).Perm
      [some sampleTodoA, some sampleTodoB, some sampleTodoC] ∧
    ((applyReorders [(0, 2), (1, 0)]
        [some sampleTodoA, some sampleTodoB, some sampleTodoC]).map
      (Option.map (fun x => x.id))).Perm
      ([some sampleTodoA, some sampleTodoB, some sampleTodoC].map
      (Option.map (fun x => x.id))) :=
  applyReorders_valid_preserves_ids [(0, 2), (1, 0)]
    [some sampleTodoA, some sampleTodoB, some sampleTodoC] (by decide)

/-! ## Claim C1: auto-started break lengths -/

/-- Helper: `startPomodoro` with a positive duration installs the fresh
session; the immediate tick cannot complete it, so `isBreak`, `sessionCount`
and the history are untouched. -/
theorem startPomodoro_projections (fuel : Nat) (taskId : Option String)
    (duration now : Int) (s : ProdState) (hd : 0 < duration) :
    (startPomodoro fuel taskId duration now s).currentPomodoro =
      some { id := "pomodoro-" ++ toString now, taskId := taskId, startTime := now,
             endTime := none, duration := duration, completed := false } ∧
    (startPomodoro fuel taskId duration now s).isBreak = s.isBreak ∧
    (startPomodoro fuel taskId duration now s).sessionCount = s.sessionCount ∧
    (startPomodoro fuel taskId duration now s).pomodoroSessions = s.pomodoroSessions := by
  have hpos : 0 < duration * 60 * 1000 := by
    rw [mul_assoc]
    exact mul_pos hd (by norm_num)
  have hne : ¬ max 0 (duration * 60 * 1000 - (now - now)) = 0 := by
    have hsub : duration * 60 * 1000 - (now - now) = duration * 60 * 1000 := by ring
    rw [hsub, max_eq_right (le_of_lt hpos)]
    omega
  cases fuel with
  | zero =>
    by_cases htm : s.timerActive <;>
      simp [startPomodoro, startSession, updateTimer, setTimerInterval,
        clearTimerInterval, htm]
  | succ f =>
    by_cases htm : s.timerActive <;>
      simp [startPomodoro, startSession, updateTimer, setTimerInterval,
        clearTimerInterval, htm, truthyTime, hne, hpos.not_le]

/-- C1: when a focus (non-break) session's remaining time reaches zero on a
tick, a break session is auto-started; its duration is the long-break value
(15 minutes) exactly when the new completion count `sessionCount + 1` is a
multiple of 4, and the short-break value (5 minutes) otherwise — in
particular completions 1-3 get 5-minute breaks and the 4th completion's
auto-started break is strictly longer; the finished focus session is
appended to history. -/
theorem updateTimer_focus_zero_autostarts_break
    (fuel : Nat) (now : Int) (s : ProdState) (cp : PomodoroSession)
    (hcp : s.currentPomodoro = some cp) (hend : cp.endTime = none)
    (hbr : s.isBreak = false)
    (hdone : cp.duration * 60 * 1000 ≤ now - cp.startTime) :
    (updateTimer (fuel + 1) now s).isBreak = true ∧
    (updateTimer (fuel + 1) now s).sessionCount = s.sessionCount + 1 ∧
    (updateTimer (fuel + 1) now s).pomodoroSessions =
      s.pomodoroSessions ++ [{ cp with endTime := some now, completed := true }] ∧
    ∃ bs : PomodoroSession,
      (updateTimer (fuel + 1) now s).currentPomodoro = some bs ∧
      bs.startTime = now ∧ bs.endTime = none ∧ bs.completed = false ∧
      ((s.sessionCount + 1) % 4 = 0 → bs.duration = 15) ∧
      (¬ (s.sessionCount + 1) % 4 = 0 → bs.duration = 5) ∧
      (5 : Int) < 15 := by
  have hrem : max 0 (cp.duration * 60 * 1000 - (now - cp.startTime)) = 0 :=
    max_eq_left (by omega)
  have key : updateTimer (fuel + 1) now s =
      startPomodoro fuel none
        (if s.sessionCount > 0 && (s.sessionCount + 1) % 4 == 0 then 15 else 5) now
        { completePomodoro now { s with timeLeft := 0 } with
          sessionCount := s.sessionCount + 1, isBreak := true } := by
    simp [updateTimer, startPomodoro, hcp, hend, truthyTime, hrem, hbr]
  have hbd : (0 : Int) <
      if s.sessionCount > 0 && (s.sessionCount + 1) % 4 == 0 then 15 else 5 := by
    split <;> norm_num
  obtain ⟨hc1, hc2, hc3, hc4⟩ := startPomodoro_projections fuel none
    (if s.sessionCount > 0 && (s.sessionCount + 1) % 4 == 0 then 15 else 5) now
    ({ completePomodoro now { s with timeLeft := 0 } with
       sessionCount := s.sessionCount + 1, isBreak := true }) hbd
  rw [key]
  refine ⟨by rw [hc2], by rw [hc3], ?_, ?_⟩
  · rw [hc4]
    simp [completePomodoro, hcp, clearTimerInterval]
  · refine ⟨_, hc1, rfl, rfl, rfl, ?_, ?_, by norm_num⟩
    · intro h4
      have hpos : 0 < s.sessionCount := by omega
      simp [hpos, h4]
    · intro h4
      have : ((s.sessionCount + 1) % 4 == 0) = false := by
        simpa using h4
      simp [this]

/-- C1, witness: a focus session with `sessionCount = 3` reaching zero (the
4th completion) auto-starts a 15-minute break. -/
theorem updateTimer_focus_zero_autostarts_break_witness :
    (updateTimer 2 1500000 threeDoneState).isBreak = true ∧
    (updateTimer 2 1500000 threeDoneState).sessionCount = 4 ∧
    ∃ bs : PomodoroSession,
      (updateTimer 2 1500000 threeDoneState).currentPomodoro = some bs ∧
      bs.duration = 15 := by
  have h := updateTimer_focus_zero_autostarts_break 1 1500000 threeDoneState
    focusSession rfl rfl rfl (by decide)
  obtain ⟨h1, h2, _, bs, hb1, _, _, _, h15, _, _⟩ := h
  exact ⟨h1, h2, bs, hb1, h15 (by decide)⟩

/-! ## Claim C4: pause/resume accounting -/

/-- C4, counterexample: start a 1-minute session at `t = 1000`, pause
immediately, resume after a 10-second gap, and tick at the moment of resume:
the remaining time is the full 60 s.  It is NOT "reduced by ~10 seconds"
(which would be ≈ 50 s) — the resume shifted `startTime` past the gap, so the
paused 10 s do not count. -/
theorem resume_after_gap_remaining_not_reduced :
    (updateTimer 2 11000 c4Resumed).timeLeft = 60000 ∧
    ¬ (updateTimer 2 11000 c4Resumed).timeLeft ≤ 51000 := by
  decide

/-- C4, amended: `resumePomodoro` shifts `startTime` forward by exactly the
elapsed paused duration and clears the pause marker, so elapsed-time
accounting is preserved across pause/resume: a tick `d` ms after the resume
shows `total − (elapsed before the pause + d)` remaining — the paused gap
itself reduces nothing.  In the claim's concrete scenario the remaining time
is therefore unchanged (~60 s) at the moment of resume, and is reduced by
~10 s only once ~10 s of post-resume running have elapsed. -/
theorem resumePomodoro_preserves_elapsed_accounting
    (fuel : Nat) (now d e : Int) (s : ProdState) (cp : PomodoroSession)
    (hcp : s.currentPomodoro = some cp) (he : cp.endTime = some e) (he0 : ¬ e = 0)
    (hrun : e - cp.startTime + d < cp.duration * 60 * 1000) :
    (resumePomodoro now s).currentPomodoro =
      some ({ cp with startTime := cp.startTime + (now - e), endTime := none }) ∧
    (updateTimer (fuel + 1) (now + d) (resumePomodoro now s)).timeLeft =
      cp.duration * 60 * 1000 - (e - cp.startTime + d) := by
  have h1 : (resumePomodoro now s).currentPomodoro =
      some ({ cp with startTime := cp.startTime + (now - e), endTime := none }) := by
    simp [resumePomodoro, hcp, he, truthyTime, he0, setTimerInterval]
  refine ⟨h1, ?_⟩
  have harith : cp.duration * 60 * 1000 - (now + d - (cp.startTime + (now - e))) =
      cp.duration * 60 * 1000 - (e - cp.startTime + d) := by ring
  have hmax : max 0 (cp.duration * 60 * 1000 - (now + d - (cp.startTime + (now - e)))) =
      cp.duration * 60 * 1000 - (e - cp.startTime + d) := by
    rw [harith]
    exact max_eq_right (by omega)
  have hne : ¬ max 0 (cp.duration * 60 * 1000 - (now + d - (cp.startTime + (now - e)))) = 0 := by
    rw [hmax]
    omega
  have hne2 : ¬ cp.duration * 60 * 1000 - (e - cp.startTime + d) = 0 := by omega
  simp [updateTimer, h1, truthyTime, hne, hne2, hmax]

/-- C4, witness: the concrete 1-minute / immediate-pause / 10-second-gap
scenario, ticked 10 s after the resume: 50 s remain. -/
theorem resumePomodoro_preserves_elapsed_accounting_witness :
    c4Resumed.currentPomodoro =
      some { id := "pomodoro-1000", taskId := none, startTime := 11000,
             endTime := none, duration := 1, completed := false } ∧
    (updateTimer 2 21000 c4Resumed).timeLeft = 50000 := by
  have h := resumePomodoro_preserves_elapsed_accounting 1 11000 10000 1000 c4Paused
    { id := "pomodoro-1000", taskId := none, startTime := 1000, endTime := some 1000,
      duration := 1, completed := false } (by decide) rfl (by decide) (by decide)
  constructor
  · exact h.1
  · have h2 := h.2
    norm_num at h2
    exact h2

/-! ## Claim C5: a failing page 2 keeps page 1's merged items -/

/-- Helper: the recorded fetch-failure message is never the empty string. -/
theorem fetchFailedMsg_ne_empty (status : Nat) (body : String) :
    ¬ ("Fetch failed: " ++ toString status ++ " " ++ body) = "" := by
  intro h
  have hlen := congrArg String.length h
  simp only [String.length_append] at hlen
  have h14 : ("Fetch failed: ").length = 14 := rfl
  have hsp : (" ").length = 1 := rfl
  have h0 : ("" : String).length = 0 := rfl
  rw [h14, hsp, h0] at hlen
  omega

/-- C5: when the id extracts, is new to the store, the key is truthy, page 1
succeeds with a truthy continuation token and the page-2 request returns a
non-success HTTP response, pagination stops (any further scripted responses
are never consumed — exactly 3 requests are made: metadata, page 1, page 2),
and the final playlist holds exactly page 1's items in both `videos` and
`order`, with a non-empty `error` and `fetching = false`; the call resolves
with `ok = false`. -/
theorem addPlaylistByUrl_page2_failure_keeps_page1
    (parseURL : String → Option (List (String × String)))
    (apiKey metaTitle : Option String) (items : List YTItem) (tok : String)
    (status : Nat) (body : String) (rest : List PageResp) (now : Int)
    (url pid : String) (st : PlaylistsState)
    (hex : extractPlaylistId parseURL url = some pid)
    (hnew : jsGet st.playlists pid = none)
    (hkey : truthyStr apiKey = true)
    (htok : ¬ tok = "")
    (hnd : ((items.map (toVideo pid)).map (fun v => v.id)).Nodup) :
    ∃ pl : Playlist,
      jsGet (addPlaylistByUrl parseURL apiKey metaTitle
          (PageResp.ok items (some tok) :: PageResp.httpError status body :: rest)
          now url st).2.1.playlists pid = some pl ∧
      pl.order = (items.map (toVideo pid)).map (fun v => v.id) ∧
      keysOf pl.videos = (items.map (toVideo pid)).map (fun v => v.id) ∧
      pl.fetching = false ∧
      (∃ e, pl.error = some e ∧ ¬ e = "") ∧
      (addPlaylistByUrl parseURL apiKey metaTitle
          (PageResp.ok items (some tok) :: PageResp.httpError status body :: rest)
          now url st).1.ok = false ∧
      (addPlaylistByUrl parseURL apiKey metaTitle
          (PageResp.ok items (some tok) :: PageResp.httpError status body :: rest)
          now url st).2.2 = 3 := by
  have htokb : truthyStr (some tok) = true := by
    simp [truthyStr, htok]
  have hvideos : (items.map (toVideo pid)).foldl (fun m v => jsSet m v.id v)
      ([] : List (String × PlaylistVideo)) =
      (items.map (toVideo pid)).map (fun v => (v.id, v)) := by
    rw [foldl_jsSet_eq_append (items.map (toVideo pid)) [] hnd (by simp [keysOf])]
    simp
  simp only [addPlaylistByUrl, hex, hnew, fetchAllPlaylistVideos, hkey, Bool.not_true,
    Bool.false_eq_true, if_false, runPages, htokb, if_true, onBatchUpdate,
    jsGet_jsSet_self, mergeBatch, List.nil_append, hvideos]
  refine ⟨_, rfl, rfl, ?_, rfl, ⟨_, rfl, fetchFailedMsg_ne_empty status body⟩, rfl, trivial⟩
  simp [keysOf, List.map_map]

/-- C5, witness: a two-item page 1 with a continuation token, followed by a
403 on page 2, on an empty store. -/
theorem addPlaylistByUrl_page2_failure_keeps_page1_witness :
    ∃ pl : Playlist,
      jsGet (addPlaylistByUrl (fun _ => none) (some "KEY") (some "Title")
          [PageResp.ok [sampleItem1, sampleItem2] (some "tok"),
            PageResp.httpError 403 "forbidden"]
          99 "PLabcDEF123_-x" ({ playlists := [], order := [] })).2.1.playlists
          "PLabcDEF123_-x" = some pl ∧
      pl.order = ["v1", "v2"] ∧
      keysOf pl.videos = ["v1", "v2"] ∧
      pl.fetching = false ∧
      (∃ e, pl.error = some e ∧ ¬ e = "") := by
  obtain ⟨pl, hget, hord, hkeys, hf, herr, _, _⟩ :=
    addPlaylistByUrl_page2_failure_keeps_page1 (fun _ => none) (some "KEY") (some "Title")
      [sampleItem1, sampleItem2] "tok" 403 "forbidden" [] 99 "PLabcDEF123_-x"
      "PLabcDEF123_-x" ({ playlists := [], order := [] })
      (by decide) rfl (by decide) (by decide) (by decide)
  refine ⟨pl, hget, ?_, ?_, hf, herr⟩
  · rw [hord]
    decide
  · rw [hkeys]
    decide

end Warmup
